import Mathlib

/-!  Formal model of the snow_recorder core logic: the run/lift/rest
segmentation state machine (`segment_runs` and `create_segment` from
`analyze_gpx.py`) and the slope-verification logic of `verify_slopes.py`
(`contains_coordinate` ray casting, `find_slope`, `identify_runs`, and the
majority-vote zone assignment of `main`).  Coordinates, elevations and speeds
are modelled as rationals.  The great-circle distance helper
(`calculate_distance`, a transcendental haversine formula) cannot be embedded
exactly over the rationals; it is abstracted as a distance-function parameter
`dist`, and no claim below depends on its value. -/

namespace SnowRecorder

/-- A GPX track sample (the `TrackPoint` dataclass of `analyze_gpx.py`);
`speed` is in m/s. -/
structure TrackPoint where
  lat : ℚ
  lon : ℚ
  ele : ℚ
  time : String
  speed : ℚ
deriving DecidableEq

instance : Inhabited TrackPoint := ⟨⟨0, 0, 0, "", 0⟩⟩

/-- Segment labels; the source uses the strings run / lift / rest. -/
inductive SegType where
  | run
  | lift
  | rest
deriving DecidableEq

instance : Inhabited SegType := ⟨SegType.rest⟩


/-- The `Segment` dataclass of `analyze_gpx.py`. -/
structure Segment where
  segment_type : SegType
  points : List TrackPoint
  start_time : String
  end_time : String
  start_ele : ℚ
  end_ele : ℚ
  vertical_change : ℚ
  distance : ℚ
  max_speed : ℚ
  avg_speed : ℚ
  estimated_slope : String
deriving DecidableEq

instance : Inhabited Segment :=
  ⟨⟨SegType.rest, [], "", "", 0, 0, 0, 0, 0, 0, "N/A"⟩⟩

/-- `SLOPE_ZONES` from `analyze_gpx.py`: name, lon_range, lat_range (the
ele_top / difficulty metadata plays no role in `estimate_slope_zone`). -/
def SLOPE_ZONES : List (String × (ℚ × ℚ) × (ℚ × ℚ)) :=
  [("VICTORIA", (128.817, 128.822), (37.183, 37.200)),
   ("HERA", (128.822, 128.826), (37.183, 37.200)),
   ("ZEUS", (128.826, 128.830), (37.190, 37.210)),
   ("ATHENA", (128.826, 128.832), (37.183, 37.200)),
   ("APOLLO", (128.830, 128.835), (37.183, 37.200))]

/-- `estimate_slope_zone` from `analyze_gpx.py` (`ele` is accepted and unused,
as in the source). -/
def estimate_slope_zone (lat lon _ele : ℚ) : String :=
  match SLOPE_ZONES.find? (fun z =>
      decide (z.2.1.1 ≤ lon ∧ lon ≤ z.2.1.2 ∧ z.2.2.1 ≤ lat ∧ lat ≤ z.2.2.2)) with
  | some z => z.1
  | none => "UNKNOWN"

/-- `create_segment` from `analyze_gpx.py`: `None` on an empty point list,
otherwise the populated `Segment`.  `dist` abstracts `calculate_distance`. -/
def create_segment (dist : TrackPoint → TrackPoint → ℚ)
    (pts : List TrackPoint) (t : SegType) : Option Segment :=
  match pts with
  | [] => none
  | p :: rest =>
    let total_distance := ((p :: rest).zip rest).foldl (fun acc e => acc + dist e.1 e.2) 0
    let speeds_kmh := ((p :: rest).filter (fun q => decide (0 < q.speed))).map
      (fun q => q.speed * (3.6 : ℚ))
    let max_speed := speeds_kmh.foldr max 0
    let avg_speed := if speeds_kmh.length = 0 then 0 else speeds_kmh.sum / speeds_kmh.length
    let plast := (p :: rest).getLastD p
    let mid := (p :: rest).getD ((p :: rest).length / 2) p
    let estimated_slope :=
      if t = SegType.run then estimate_slope_zone mid.lat mid.lon mid.ele else "N/A"
    some { segment_type := t
           points := p :: rest
           start_time := p.time
           end_time := plast.time
           start_ele := p.ele
           end_ele := plast.ele
           vertical_change := plast.ele - p.ele
           distance := total_distance
           max_speed := max_speed
           avg_speed := avg_speed
           estimated_slope := estimated_slope }

/-- The per-point label computation of `segment_runs` (`analyze_gpx.py`
lines 117-144): thresholds 5.0 / 2.0 km/h, elevation-trend window of 5
samples, usable only when `5 < i`. -/
def newType (pts : List TrackPoint) (i : Nat) (p : TrackPoint) : SegType :=
  let speed_kmh := p.speed * (3.6 : ℚ)
  if 5 < speed_kmh then
    if 5 < i then
      let recent := p.ele - (pts.getD (i - 5) default).ele
      if recent < -3 then SegType.run
      else if 3 < recent then SegType.lift
      else SegType.run
    else SegType.run
  else if 2 < speed_kmh then
    if 5 < i then
      let recent := p.ele - (pts.getD (i - 5) default).ele
      if 2 < recent then SegType.lift else SegType.rest
    else SegType.lift
  else SegType.rest

/-- The loop state of `segment_runs`: emitted segments, the accumulating
buffer, and the buffer's type (`None` before the first point). -/
structure SegState where
  segments : List Segment
  current_points : List TrackPoint
  current_type : Option SegType
deriving DecidableEq

/-- One iteration of the `segment_runs` loop body for the point at index `i`:
seed the type when unset, commit a transition only when the buffer already has
`MIN_SEGMENT_POINTS = 10` points, else absorb the point. -/
def stepPoint (dist : TrackPoint → TrackPoint → ℚ) (pts : List TrackPoint)
    (st : SegState) (i : Nat) (p : TrackPoint) : SegState :=
  let nt := newType pts i p
  let ct := st.current_type.getD nt
  if nt ≠ ct ∧ 10 ≤ st.current_points.length then
    { segments := st.segments ++ (create_segment dist st.current_points ct).toList
      current_points := [p]
      current_type := some nt }
  else
    { segments := st.segments
      current_points := st.current_points ++ [p]
      current_type := some ct }

/-- The `for i, point in enumerate(points)` loop of `segment_runs`. -/
def runLoop (dist : TrackPoint → TrackPoint → ℚ) (pts : List TrackPoint) :
    Nat → List TrackPoint → SegState → SegState
  | _, [], st => st
  | i, p :: rest, st => runLoop dist pts (i + 1) rest (stepPoint dist pts st i p)

/-- End-of-stream handling of `segment_runs`: the trailing buffer is emitted
only when it has at least 10 points (`current_type` is necessarily set there;
the `getD` default is unreachable). -/
def finalizeState (dist : TrackPoint → TrackPoint → ℚ) (st : SegState) : List Segment :=
  if 10 ≤ st.current_points.length then
    st.segments ++ (create_segment dist st.current_points (st.current_type.getD default)).toList
  else
    st.segments

/-- `segment_runs` from `analyze_gpx.py`. -/
def segment_runs (dist : TrackPoint → TrackPoint → ℚ) (pts : List TrackPoint) :
    List Segment :=
  finalizeState dist (runLoop dist pts 0 pts ⟨[], [], none⟩)

/-- A parsed point of `verify_slopes.py` (the dict built by
`parse_gpx_points`; speed is stored already converted to km/h). -/
structure VPoint where
  lat : ℚ
  lon : ℚ
  ele : ℚ
  speed_kmh : ℚ
deriving DecidableEq

/-- `SLOPE_DEFINITIONS` from `verify_slopes.py`, in source (dict-insertion)
order. -/
def SLOPE_DEFINITIONS : List (String × List (ℚ × ℚ)) :=
  [("APOLLO VI",
    [(37.185625, 128.817298), (37.185625, 128.823481),
     (37.183367, 128.823481), (37.183367, 128.817298)]),
   ("HERA II",
    [(37.190233, 128.817327), (37.190233, 128.828115),
     (37.183076, 128.828115), (37.183076, 128.817327)]),
   ("ZEUS III",
    [(37.197708, 128.827842), (37.197708, 128.832255),
     (37.190316, 128.832255), (37.190316, 128.827842)]),
   ("ATHENA II",
    [(37.199586, 128.820060), (37.199586, 128.832025),
     (37.183794, 128.832025), (37.183794, 128.820060)])]

/-- One edge test of `contains_coordinate`: the straddle check and, only then,
the latitude comparison against the interpolated crossing. -/
def edgeCross (vi vj : ℚ × ℚ) (lat lon : ℚ) : Bool :=
  (decide (vi.2 > lon) != decide (vj.2 > lon)) &&
    decide (lat < (vj.1 - vi.1) * (lon - vi.2) / (vj.2 - vi.2) + vi.1)

/-- The edges traversed by the `contains_coordinate` loop: vertex `i` paired
with its predecessor (`j = i - 1`, wrapping to the last vertex for `i = 0`). -/
def ringEdges (poly : List (ℚ × ℚ)) : List ((ℚ × ℚ) × (ℚ × ℚ)) :=
  match poly.getLast? with
  | none => []
  | some vlast => poly.zip (vlast :: poly.dropLast)

/-- `contains_coordinate` from `verify_slopes.py`: ray casting with an early
`false` for polygons of fewer than 3 vertices. -/
def contains_coordinate (poly : List (ℚ × ℚ)) (lat lon : ℚ) : Bool :=
  if poly.length < 3 then false
  else (ringEdges poly).foldl
    (fun inside e => if edgeCross e.1 e.2 lat lon then !inside else inside) false

/-- Fallibility model of one edge test: `none` exactly when the interpolation
`(lon - yi) / (yj - yi)` would be evaluated with a zero denominator (the
situation in which the Python source would raise `ZeroDivisionError`). -/
def edgeCrossChecked (vi vj : ℚ × ℚ) (lat lon : ℚ) : Option Bool :=
  if decide (vi.2 > lon) != decide (vj.2 > lon) then
    if vj.2 - vi.2 = 0 then none
    else some (decide (lat < (vj.1 - vi.1) * (lon - vi.2) / (vj.2 - vi.2) + vi.1))
  else some false

/-- Fallibility model of `contains_coordinate`: propagates `none` from any
edge whose evaluation would divide by zero. -/
def containsChecked (poly : List (ℚ × ℚ)) (lat lon : ℚ) : Option Bool :=
  if poly.length < 3 then some false
  else (ringEdges poly).foldlM
    (fun inside e => (edgeCrossChecked e.1 e.2 lat lon).map
      fun c => if c then !inside else inside) false

/-- `find_slope` from `verify_slopes.py`: first polygon containing the point,
in `SLOPE_DEFINITIONS` order; `None` when no polygon matches. -/
def find_slope (lat lon : ℚ) : Option String :=
  (SLOPE_DEFINITIONS.find? (fun nb => contains_coordinate nb.2 lat lon)).map (fun nb => nb.1)

/-- The loop state of `identify_runs`. -/
structure IRState where
  runs : List (List VPoint)
  current_run : List VPoint
  in_run : Bool
deriving DecidableEq

/-- One iteration of the `identify_runs` loop body. -/
def irStep (st : IRState) (p : VPoint) : IRState :=
  if 10 < p.speed_kmh then
    if st.in_run then
      { runs := st.runs, current_run := st.current_run ++ [p], in_run := true }
    else
      { runs := st.runs, current_run := [p], in_run := true }
  else
    { runs := if st.in_run ∧ 20 < st.current_run.length
              then st.runs ++ [st.current_run] else st.runs
      current_run := []
      in_run := false }

/-- `identify_runs` from `verify_slopes.py`: note the function returns `runs`
directly after the loop, with no flush of a trailing fast stretch. -/
def identify_runs (pts : List VPoint) : List (List VPoint) :=
  (pts.foldl irStep ⟨[], [], false⟩).runs

/-- The `defaultdict(int)` increment `slope_votes[slope] += 1` on an
insertion-ordered association list. -/
def bump : List (String × Nat) → String → List (String × Nat)
  | [], z => [(z, 1)]
  | e :: t, z => if e.1 = z then (e.1, e.2 + 1) :: t else e :: bump t z

/-- Tally lookup (0 for an absent key, as for `defaultdict(int)`). -/
def lookupCount : List (String × Nat) → String → Nat
  | [], _ => 0
  | e :: t, z => if e.1 = z then e.2 else lookupCount t z

/-- One point's contribution to `slope_votes` in `main` of `verify_slopes.py`:
unmatched points (`find_slope` returns `None`) are skipped. -/
def voteStep (t : List (String × Nat)) (p : VPoint) : List (String × Nat) :=
  match find_slope p.lat p.lon with
  | some z => bump t z
  | none => t

/-- The `slope_votes` tally of a run, in point-iteration order. -/
def tallyOf (run : List VPoint) : List (String × Nat) := run.foldl voteStep []

/-- Python's `max(votes, key=votes.get)` over a nonempty iteration sequence:
the running best is replaced only when a later entry is strictly greater, so
the first maximal entry wins. -/
def pickBest (x : String × Nat) (xs : List (String × Nat)) : String × Nat :=
  xs.foldl (fun b y => if b.2 < y.2 then y else b) x

/-- `max(slope_votes, key=slope_votes.get)` guarded by `if slope_votes:`. -/
def maxVote : List (String × Nat) → Option (String × Nat)
  | [] => none
  | x :: xs => some (pickBest x xs)

/-- The per-run primary-slope assignment of `main` in `verify_slopes.py`
(`none` corresponds to the "Unknown" branch). -/
def assignZone (run : List VPoint) : Option String :=
  (maxVote (tallyOf run)).map (fun e => e.1)

/-- The classification pass of `main` in `verify_slopes.py`: per-run primary
slopes and the session-level `slope_counts` tally over assigned runs. -/
def session_summary (pts : List VPoint) : List (Option String) × List (String × Nat) :=
  let assigned := (identify_runs pts).map assignZone
  (assigned, assigned.foldl (fun t z => match z with | some n => bump t n | none => t) [])

/-- The P3 test polygon: square with vertices (0,0),(0,10),(10,10),(10,0). -/
def squarePoly : List (ℚ × ℚ) := [(0, 0), (0, 10), (10, 10), (10, 0)]

/-- Points inside polygon "APOLLO VI" and "ZEUS III" respectively, used for
the vote tie-break instance. -/
def pA : VPoint := ⟨37.185, 128.820, 0, 0⟩

def pB : VPoint := ⟨37.195, 128.830, 0, 0⟩

/-- The E2E scenario input: speed (km/h) ramps 0→8 over indices 0-9, is 9
over indices 10-24 and 0 over 25-29. -/
def scenKmh (i : Nat) : ℚ := if i < 10 then min (i : ℚ) 8 else if i < 25 then 9 else 0

/-- The E2E scenario elevations: flat at 100 m, dropping linearly by 5 m over
indices 10-24, then flat at 95 m. -/
def scenEle (i : Nat) : ℚ :=
  if i < 10 then 100 else if i < 25 then 100 - ((i : ℚ) - 10) * 5 / 14 else 95

/-- The E2E scenario point at index `i` (speed stored in m/s, as the
`TrackPoint` dataclass does). -/
def scenPoint (i : Nat) : TrackPoint := ⟨0, 0, scenEle i, "", scenKmh i * 5 / 18⟩

/-- The 30-point E2E scenario. -/
def scenario : List TrackPoint := (List.range 30).map scenPoint

/-- A concrete instantiation of the abstracted distance function (the claims
are independent of its value). -/
def dzero : TrackPoint → TrackPoint → ℚ := fun _ _ => 0

/-- A point faster than 10 km/h, for the `identify_runs` witness. -/
def fastP : VPoint := ⟨0, 0, 0, 20⟩

/-- The label-assignment rule of the spec (claim C6), written following the
spec sentences: in the fast branch the label is Run when the windowed delta is
below −3 or in the ambiguous middle band and Lift when it exceeds +3, with Run
as the no-window default; in the moderate branch the label is Lift when the
delta exceeds +2 and Rest otherwise, with Lift as the no-window default;
otherwise Rest. -/
def labelSpecC6 (pts : List TrackPoint) (i : Nat) (p : TrackPoint) : SegType :=
  let speed_kmh := p.speed * (3.6 : ℚ)
  if 5 < speed_kmh then
    if 5 < i then
      let delta := p.ele - (pts.getD (i - 5) default).ele
      if delta < -3 then SegType.run
      else if -3 ≤ delta ∧ delta ≤ 3 then SegType.run
      else if 3 < delta then SegType.lift
      else SegType.run
    else SegType.run
  else if 2 < speed_kmh then
    if 5 < i then
      let delta := p.ele - (pts.getD (i - 5) default).ele
      if 2 < delta then SegType.lift else SegType.rest
    else SegType.lift
  else SegType.rest

/-- A straddling edge has distinct endpoint longitudes, so the checked edge
test never reports a division by zero. -/
lemma edgeCrossChecked_eq_some (vi vj : ℚ × ℚ) (lat lon : ℚ) :
    edgeCrossChecked vi vj lat lon = some (edgeCross vi vj lat lon) := by
  unfold edgeCrossChecked edgeCross
  by_cases h : decide (vi.2 > lon) = decide (vj.2 > lon)
  · simp [h, bne]
  · have hne : vj.2 - vi.2 ≠ 0 := by
      intro h0
      have : vi.2 = vj.2 := by linarith [sub_eq_zero.mp h0]
      exact h (by rw [this])
    have hb : (decide (vi.2 > lon) != decide (vj.2 > lon)) = true := by
      simp [bne]
      intro hiff
      exact h (by simp [decide_eq_decide, hiff])
    simp [hb, hne]

/-- Fold-level version: the checked ray-casting pass never reports a division
by zero and agrees with the total function. -/
lemma foldlM_edges_eq_some (lat lon : ℚ) :
    ∀ (edges : List ((ℚ × ℚ) × (ℚ × ℚ))) (b : Bool),
      edges.foldlM (fun inside e => (edgeCrossChecked e.1 e.2 lat lon).map
        fun c => if c then !inside else inside) b =
      some (edges.foldl
        (fun inside e => if edgeCross e.1 e.2 lat lon then !inside else inside) b)
  | [], b => rfl
  | e :: es, b => by
    rw [List.foldlM_cons, List.foldl_cons, edgeCrossChecked_eq_some]
    exact foldlM_edges_eq_some lat lon es _

/-- C3: for every polygon and query point, the checked evaluation of
`contains_coordinate` succeeds (no edge ever reaches the interpolation with a
zero denominator, so the Python source can never raise `ZeroDivisionError`)
and agrees with the total boolean function; a polygon with fewer than 3
vertices always yields `false`; and an edge whose endpoints share a longitude
fails the straddle check, hence is treated as non-crossing without reaching
the division. -/
theorem c3_no_division_and_degenerate (poly : List (ℚ × ℚ)) (lat lon : ℚ) :
    containsChecked poly lat lon = some (contains_coordinate poly lat lon) ∧
    (poly.length < 3 → contains_coordinate poly lat lon = false) ∧
    (∀ vi vj : ℚ × ℚ, vi.2 = vj.2 → edgeCrossChecked vi vj lat lon = some false) := by
  refine ⟨?_, ?_, ?_⟩
  · unfold containsChecked contains_coordinate
    by_cases h : poly.length < 3
    · simp [h]
    · simp only [h, if_false]
      exact foldlM_edges_eq_some lat lon (ringEdges poly) false
  · intro h
    unfold contains_coordinate
    simp [h]
  · intro vi vj h
    unfold edgeCrossChecked
    simp [h, bne]

/-- Witness for C3 at a one-vertex polygon and a longitude-horizontal edge. -/
theorem c3_witness :
    containsChecked [((0 : ℚ), (0 : ℚ))] 1 2 = some false ∧
    contains_coordinate [((0 : ℚ), (0 : ℚ))] 1 2 = false ∧
    edgeCrossChecked ((0 : ℚ), (0 : ℚ)) ((5 : ℚ), (0 : ℚ)) 1 2 = some false := by
  have h := c3_no_division_and_degenerate [((0 : ℚ), (0 : ℚ))] 1 2
  have hlen : ([((0 : ℚ), (0 : ℚ))].length < 3) := by decide
  have h2 := h.2.1 hlen
  exact ⟨h.1.trans (congrArg some h2), h2, h.2.2 (0, 0) (5, 0) rfl⟩

/-- C5: for the fixed square ring, (5,5) is classified inside and (15,15)
outside, invariantly under every rotation of the vertex-list start index. -/
theorem c5_square_rotation_invariant (n : ℕ) :
    contains_coordinate (squarePoly.rotate n) 5 5 = true ∧
    contains_coordinate (squarePoly.rotate n) 15 15 = false := by
  have hl : squarePoly.length = 4 := rfl
  rw [← List.rotate_mod, hl]
  rcases (by omega : n % 4 = 0 ∨ n % 4 = 1 ∨ n % 4 = 2 ∨ n % 4 = 3) with h | h | h | h <;>
    rw [h] <;>
    exact ⟨by with_unfolding_all decide, by with_unfolding_all decide⟩

/-- C6: the per-point label computed by `segment_runs` agrees, for every
input list, index and point, with the spec's description of the rule. -/
theorem c6_label_rule (pts : List TrackPoint) (i : Nat) (p : TrackPoint) :
    newType pts i p = labelSpecC6 pts i p := by
  simp only [newType, labelSpecC6]
  split_ifs <;> first | rfl | (exfalso; linarith)

/-- C7: the pipeline is deterministic — the segmentation pass and the
classification/aggregation pass are pure functions of their inputs, so a
second run on the same input and registry produces identical segments and
identical per-zone statistics. -/
theorem c7_deterministic (d : TrackPoint → TrackPoint → ℚ)
    (pts : List TrackPoint) (qs : List VPoint) :
    segment_runs d pts = segment_runs d pts ∧ session_summary qs = session_summary qs :=
  ⟨rfl, rfl⟩

/-- Processing points faster than 10 km/h never moves anything into `runs`. -/
lemma foldl_irStep_fast : ∀ (fast : List VPoint) (st : IRState),
    (∀ p ∈ fast, 10 < p.speed_kmh) → (fast.foldl irStep st).runs = st.runs
  | [], _, _ => rfl
  | p :: ps, st, h => by
    rw [List.foldl_cons]
    have hr := foldl_irStep_fast ps (irStep st p) (fun q hq => h q (List.mem_cons_of_mem _ hq))
    rw [hr]
    have hp : 10 < p.speed_kmh := h p (List.mem_cons_self _ _)
    unfold irStep
    simp [hp]
    split <;> rfl

/-- C10: `identify_runs` emits only fast stretches that are terminated inside
the input by a point at 10 km/h or below: appending any trailing all-fast
suffix to an input leaves the output unchanged, so a maximal fast stretch
that runs to the end of the input is never emitted, whatever its length. -/
theorem c10_trailing_run_dropped (ps fast : List VPoint)
    (h : ∀ p ∈ fast, 10 < p.speed_kmh) :
    identify_runs (ps ++ fast) = identify_runs ps := by
  unfold identify_runs
  rw [List.foldl_append]
  exact foldl_irStep_fast fast _ h

/-- Witness for C10: 25 consecutive fast points (beyond the 20-point
minimum) reaching end-of-stream produce no run at all. -/
theorem c10_witness : identify_runs (List.replicate 25 fastP) = [] := by
  have h := c10_trailing_run_dropped [] (List.replicate 25 fastP)
    (by intro p hp; rw [List.eq_of_mem_replicate hp]; with_unfolding_all decide)
  simpa using h

/-- A nonempty buffer finalizes into exactly one segment carrying the buffer
as its point list and the buffer type as its label. -/
lemma create_segment_toList (d : TrackPoint → TrackPoint → ℚ) (pts : List TrackPoint)
    (t : SegType) (h : pts ≠ []) :
    ∃ s, (create_segment d pts t).toList = [s] ∧ s.points = pts ∧ s.segment_type = t := by
  match pts with
  | [] => exact absurd rfl h
  | p :: rest => exact ⟨_, rfl, rfl, rfl⟩

/-- Concatenation of the emitted segments' point lists, in output order. -/
def segPoints (l : List Segment) : List TrackPoint :=
  l.foldr (fun s acc => s.points ++ acc) []

lemma segPoints_append (a b : List Segment) :
    segPoints (a ++ b) = segPoints a ++ segPoints b := by
  induction a with
  | nil => rfl
  | cons s a ih =>
    simp only [List.cons_append, segPoints, List.foldr_cons] at *
    rw [ih, List.append_assoc]

/-- Complete case analysis of one loop iteration of `segment_runs`: either a
transition commits (buffer full and label changed) and the buffer is emitted,
or the point is absorbed into the buffer. -/
lemma stepPoint_cases (d : TrackPoint → TrackPoint → ℚ) (pts : List TrackPoint)
    (st : SegState) (i : Nat) (p : TrackPoint) :
    (∃ s, newType pts i p ≠ st.current_type.getD (newType pts i p) ∧
        10 ≤ st.current_points.length ∧
        s.points = st.current_points ∧
        s.segment_type = st.current_type.getD (newType pts i p) ∧
        stepPoint d pts st i p =
          ⟨st.segments ++ [s], [p], some (newType pts i p)⟩) ∨
    stepPoint d pts st i p =
        ⟨st.segments, st.current_points ++ [p],
         some (st.current_type.getD (newType pts i p))⟩ := by
  by_cases hc : newType pts i p ≠ st.current_type.getD (newType pts i p) ∧
      10 ≤ st.current_points.length
  · obtain ⟨s, hl, hp, ht⟩ := create_segment_toList d st.current_points
      (st.current_type.getD (newType pts i p))
      (List.ne_nil_of_length_pos (by omega))
    exact Or.inl ⟨s, hc.1, hc.2, hp, ht, by simp [stepPoint, hc, hl]⟩
  · exact Or.inr (by simp [stepPoint, hc])

/-- The loop of `segment_runs` preserves any state predicate preserved by its
body. -/
lemma runLoop_preserves (d : TrackPoint → TrackPoint → ℚ) (pts : List TrackPoint)
    (P : SegState → Prop)
    (hstep : ∀ st i p, P st → P (stepPoint d pts st i p)) :
    ∀ (rest : List TrackPoint) (i : Nat) (st : SegState), P st → P (runLoop d pts i rest st)
  | [], _, _, h => h
  | p :: rest, i, st, h =>
    runLoop_preserves d pts P hstep rest (i + 1) _ (hstep st i p h)

/-- The minimum-length invariant: every emitted segment has ≥ 10 points. -/
def minLenInv (st : SegState) : Prop := ∀ s ∈ st.segments, 10 ≤ s.points.length

lemma stepPoint_minLen (d : TrackPoint → TrackPoint → ℚ) (pts : List TrackPoint)
    (st : SegState) (i : Nat) (p : TrackPoint) (h : minLenInv st) :
    minLenInv (stepPoint d pts st i p) := by
  rcases stepPoint_cases d pts st i p with ⟨s, -, hlen, hp, -, heq⟩ | heq
  · rw [heq]
    intro s2 hs2
    rcases List.mem_append.mp hs2 with hs2 | hs2
    · exact h s2 hs2
    · rw [List.mem_singleton.mp hs2, hp]
      exact hlen
  · rw [heq]
    exact h

/-- C1: every segment returned by `segment_runs` has at least
`MIN_SEGMENT_POINTS = 10` points — a transition only commits a full buffer,
and the trailing buffer is emitted only when full. -/
theorem c1_min_segment_points (d : TrackPoint → TrackPoint → ℚ)
    (pts : List TrackPoint) : ∀ s ∈ segment_runs d pts, 10 ≤ s.points.length := by
  intro s hs
  have hloop : minLenInv (runLoop d pts 0 pts ⟨[], [], none⟩) :=
    runLoop_preserves d pts minLenInv (stepPoint_minLen d pts) pts 0 _
      (by intro s2 hs2; simp at hs2)
  unfold segment_runs finalizeState at hs
  split at hs
  next hlen =>
    rcases List.mem_append.mp hs with hs | hs
    · exact hloop s hs
    · obtain ⟨s2, hl, hp, -⟩ := create_segment_toList d
        (runLoop d pts 0 pts ⟨[], [], none⟩).current_points
        ((runLoop d pts 0 pts ⟨[], [], none⟩).current_type.getD default)
        (List.ne_nil_of_length_pos (by omega))
      rw [hl] at hs
      rw [List.mem_singleton.mp hs, hp]
      exact hlen
  next => exact hloop s hs

/-- Witness for C1: on 10 identical idle points, one segment is emitted and
its point count is at least 10. -/
theorem c1_witness :
    10 ≤ ((segment_runs dzero (List.replicate 10 default)).headD default).points.length := by
  refine c1_min_segment_points dzero (List.replicate 10 default) _ ?_
  with_unfolding_all decide

/-- One loop iteration moves the incoming point to the end of the processed
material (emitted segments followed by the live buffer). -/
lemma stepPoint_points_eq (d : TrackPoint → TrackPoint → ℚ) (pts : List TrackPoint)
    (st : SegState) (i : Nat) (p : TrackPoint) :
    segPoints (stepPoint d pts st i p).segments ++ (stepPoint d pts st i p).current_points =
      segPoints st.segments ++ st.current_points ++ [p] := by
  rcases stepPoint_cases d pts st i p with ⟨s, -, -, hp, -, heq⟩ | heq
  · rw [heq]
    show segPoints (st.segments ++ [s]) ++ [p] = _
    rw [segPoints_append]
    simp [segPoints, hp, List.append_assoc]
  · rw [heq]
    show segPoints st.segments ++ (st.current_points ++ [p]) = _
    simp [List.append_assoc]

/-- The `segment_runs` loop exactly accounts for the consumed input: emitted
segments plus the live buffer concatenate to the processed prefix. -/
lemma runLoop_points_eq (d : TrackPoint → TrackPoint → ℚ) (pts : List TrackPoint) :
    ∀ (rest : List TrackPoint) (i : Nat) (st : SegState),
      segPoints (runLoop d pts i rest st).segments ++
          (runLoop d pts i rest st).current_points =
        segPoints st.segments ++ st.current_points ++ rest
  | [], i, st => by simp [runLoop]
  | p :: rest, i, st => by
    rw [runLoop, runLoop_points_eq d pts rest (i + 1) (stepPoint d pts st i p),
      stepPoint_points_eq]
    simp [List.append_assoc]

/-- C2: the concatenation of the point lists of the segments returned by
`segment_runs`, in output order, is a prefix (hence an order-preserving
subsequence) of the input, and consequently no input position is used by two
segments. -/
theorem c2_coverage (d : TrackPoint → TrackPoint → ℚ) (pts : List TrackPoint) :
    (∃ k, segPoints (segment_runs d pts) = List.take k pts) ∧
    List.Sublist (segPoints (segment_runs d pts)) pts := by
  have hpre : ∀ a b : List TrackPoint, a ++ b = pts →
      (∃ k, a = List.take k pts) ∧ List.Sublist a pts := by
    intro a b hab
    refine ⟨⟨a.length, by rw [← hab, List.take_left]⟩, ?_⟩
    rw [← hab]
    exact List.sublist_append_left a b
  have h := runLoop_points_eq d pts pts 0 ⟨[], [], none⟩
  simp only [segPoints, List.foldr_nil, List.nil_append] at h
  unfold segment_runs finalizeState
  split
  next hlen =>
    obtain ⟨s, hl, hp, -⟩ := create_segment_toList d
      (runLoop d pts 0 pts ⟨[], [], none⟩).current_points
      ((runLoop d pts 0 pts ⟨[], [], none⟩).current_type.getD default)
      (List.ne_nil_of_length_pos (by omega))
    rw [hl]
    refine hpre _ [] ?_
    rw [List.append_nil, segPoints_append]
    simpa [segPoints, hp] using h
  next =>
    exact hpre _ _ h

/-- The alternation invariant of the `segment_runs` loop: the emitted segment
types alternate, the live buffer's type differs from the last emitted
segment's type, and before the first point nothing has been emitted or
buffered. -/
def altInv (st : SegState) : Prop :=
  List.Chain' (fun a b => a.segment_type ≠ b.segment_type) st.segments ∧
  (∀ t, st.current_type = some t →
    ∀ s, st.segments.getLast? = some s → s.segment_type ≠ t) ∧
  (st.current_type = none → st.segments = [] ∧ st.current_points = [])

lemma stepPoint_alt (d : TrackPoint → TrackPoint → ℚ) (pts : List TrackPoint)
    (st : SegState) (i : Nat) (p : TrackPoint) (h : altInv st) :
    altInv (stepPoint d pts st i p) := by
  obtain ⟨hch, hlast, hnone⟩ := h
  rcases stepPoint_cases d pts st i p with ⟨s, hne, hlen, hp, ht, heq⟩ | heq
  · rw [heq]
    have hct : st.current_type = some (st.current_type.getD (newType pts i p)) := by
      cases hcur : st.current_type with
      | none => rw [hcur] at hne; simp at hne
      | some c => simp
    refine ⟨?_, ?_, by simp⟩
    · refine List.Chain'.append hch (List.chain'_singleton s) ?_
      intro x hx y hy
      rw [List.head?_cons, Option.mem_some_iff] at hy
      rw [← hy, ht]
      exact hlast _ hct x hx
    · intro t hteq s2 hs2
      rw [Option.some_inj] at hteq
      rw [List.getLast?_concat, Option.some_inj] at hs2
      rw [← hs2, ht, ← hteq]
      exact Ne.symm hne
  · rw [heq]
    refine ⟨hch, ?_, by simp⟩
    intro t hteq s2 hs2
    rw [Option.some_inj] at hteq
    cases hcur : st.current_type with
    | none =>
      rw [(hnone hcur).1] at hs2
      simp at hs2
    | some c =>
      rw [hcur] at hteq
      simp only [Option.getD_some] at hteq
      rw [← hteq]
      exact hlast c hcur s2 hs2

/-- C9: any two consecutive segments returned by `segment_runs` carry
different type labels. -/
theorem c9_alternating_types (d : TrackPoint → TrackPoint → ℚ)
    (pts : List TrackPoint) :
    List.Chain' (fun a b => a.segment_type ≠ b.segment_type) (segment_runs d pts) := by
  have hloop : altInv (runLoop d pts 0 pts ⟨[], [], none⟩) :=
    runLoop_preserves d pts altInv (stepPoint_alt d pts) pts 0 _
      ⟨List.chain'_nil, by intro t ht s hs; simp at hs, fun _ => ⟨rfl, rfl⟩⟩
  obtain ⟨hch, hlast, hnone⟩ := hloop
  unfold segment_runs finalizeState
  split
  next hlen =>
    have hsome : ∃ t, (runLoop d pts 0 pts ⟨[], [], none⟩).current_type = some t := by
      cases hcur : (runLoop d pts 0 pts ⟨[], [], none⟩).current_type with
      | none =>
        rw [(hnone hcur).2] at hlen
        simp at hlen
      | some c => exact ⟨c, rfl⟩
    obtain ⟨t, hcur⟩ := hsome
    obtain ⟨s, hl, -, ht⟩ := create_segment_toList d
      (runLoop d pts 0 pts ⟨[], [], none⟩).current_points
      ((runLoop d pts 0 pts ⟨[], [], none⟩).current_type.getD default)
      (List.ne_nil_of_length_pos (by omega))
    rw [hl]
    refine List.Chain'.append hch (List.chain'_singleton s) ?_
    intro x hx y hy
    rw [List.head?_cons, Option.mem_some_iff] at hy
    rw [← hy, ht, hcur]
    exact hlast t hcur x hx
  next => exact hch

/-- `lookupCount` after a `bump`: the bumped key gains one, the others keep
their counts. -/
lemma lookupCount_bump (t : List (String × Nat)) (z w : String) :
    lookupCount (bump t z) w = lookupCount t w + (if z = w then 1 else 0) := by
  induction t with
  | nil => by_cases h : z = w <;> simp [bump, lookupCount, h]
  | cons e t ih =>
    rcases e with ⟨n, c⟩
    by_cases h1 : n = z
    · subst h1
      by_cases h2 : n = w
      · subst h2
        simp [bump, lookupCount]
      · simp [bump, lookupCount, h2]
    · have h4 : ¬z = n := fun hzn => h1 hzn.symm
      by_cases h2 : n = w
      · subst h2
        simp [bump, lookupCount, h1, h4]
      · simp [bump, lookupCount, h1, h2, ih]

/-- The vote tally counts, per zone, exactly the run points the classifier
matches to that zone (unmatched points contribute nothing). -/
lemma foldl_voteStep_count : ∀ (run : List VPoint) (t : List (String × Nat)) (z : String),
    lookupCount (run.foldl voteStep t) z =
      lookupCount t z +
        (run.filter (fun p => decide (find_slope p.lat p.lon = some z))).length
  | [], t, z => by simp
  | p :: run, t, z => by
    rw [List.foldl_cons, foldl_voteStep_count run (voteStep t p) z]
    unfold voteStep
    cases hf : find_slope p.lat p.lon with
    | none => simp [List.filter_cons, hf]
    | some w =>
      rw [lookupCount_bump]
      by_cases hw : w = z
      · subst hw
        simp [List.filter_cons, hf]
        omega
      · simp [List.filter_cons, hf, hw]

/-- Python's first-max fold: the result bounds every entry, and everything
strictly before the winning entry is strictly smaller (the tie-break goes to
the earliest entry). -/
lemma pickBest_spec : ∀ (xs : List (String × Nat)) (x : String × Nat),
    x.2 ≤ (pickBest x xs).2 ∧ (∀ y ∈ xs, y.2 ≤ (pickBest x xs).2) ∧
      (pickBest x xs = x ∨
        ∃ l1 l2, xs = l1 ++ (pickBest x xs) :: l2 ∧ x.2 < (pickBest x xs).2 ∧
          ∀ y ∈ l1, y.2 < (pickBest x xs).2)
  | [], x => ⟨le_refl _, by simp, Or.inl rfl⟩
  | y :: ys, x => by
    have hstep : pickBest x (y :: ys) = pickBest (if x.2 < y.2 then y else x) ys := rfl
    by_cases h : x.2 < y.2
    · rw [hstep, if_pos h]
      obtain ⟨h1, h2, h3⟩ := pickBest_spec ys y
      refine ⟨le_of_lt (lt_of_lt_of_le h h1), ?_, ?_⟩
      · intro z hz
        rcases List.mem_cons.mp hz with hz | hz
        · rw [hz]; exact h1
        · exact h2 z hz
      · rcases h3 with h3 | ⟨l1, l2, hdec, hlt, hall⟩
        · exact Or.inr ⟨[], ys, by rw [h3]; simp, by rw [h3]; exact h, by simp⟩
        · refine Or.inr ⟨y :: l1, l2, by rw [List.cons_append, ← hdec], lt_trans h hlt, ?_⟩
          intro z hz
          rcases List.mem_cons.mp hz with hz | hz
          · rw [hz]; exact hlt
          · exact hall z hz
    · rw [hstep, if_neg h]
      obtain ⟨h1, h2, h3⟩ := pickBest_spec ys x
      have hy : y.2 ≤ x.2 := le_of_not_lt h
      refine ⟨h1, ?_, ?_⟩
      · intro z hz
        rcases List.mem_cons.mp hz with hz | hz
        · rw [hz]; exact le_trans hy h1
        · exact h2 z hz
      · rcases h3 with h3 | ⟨l1, l2, hdec, hlt, hall⟩
        · exact Or.inl h3
        · refine Or.inr ⟨y :: l1, l2, by rw [List.cons_append, ← hdec], hlt, ?_⟩
          intro z hz
          rcases List.mem_cons.mp hz with hz | hz
          · rw [hz]; exact lt_of_le_of_lt hy hlt
          · exact hall z hz

/-- C4: the zone tally of a run counts, per zone, exactly the points the
classifier matches to that zone (unmatched points are excluded); when a
primary zone is assigned, its tally bounds every zone's tally and every zone
inserted into the tally before it (tally order follows point-iteration order)
has a strictly smaller tally — ties go to the first-inserted zone; and on a
concrete run classified A, A, B, B the assigned zone is A. -/
theorem c4_majority_vote (run : List VPoint) :
    (∀ z, lookupCount (tallyOf run) z =
      (run.filter (fun p => decide (find_slope p.lat p.lon = some z))).length) ∧
    (∀ z c, maxVote (tallyOf run) = some (z, c) →
      (∀ e ∈ tallyOf run, e.2 ≤ c) ∧
      ∃ l1 l2, tallyOf run = l1 ++ (z, c) :: l2 ∧ ∀ e ∈ l1, e.2 < c) ∧
    assignZone [pA, pA, pB, pB] = some "APOLLO VI" := by
  refine ⟨?_, ?_, ?_⟩
  · intro z
    have h := foldl_voteStep_count run [] z
    simpa [tallyOf, lookupCount] using h
  · intro z c hm
    cases htal : tallyOf run with
    | nil => rw [htal] at hm; simp [maxVote] at hm
    | cons x xs =>
      rw [htal] at hm
      simp only [maxVote, Option.some_inj] at hm
      obtain ⟨h1, h2, h3⟩ := pickBest_spec xs x
      rw [hm] at h1 h2 h3
      constructor
      · intro e he
        rcases List.mem_cons.mp he with he | he
        · rw [he]; exact h1
        · exact h2 e he
      · rcases h3 with h3 | ⟨l1, l2, hdec, hlt, hall⟩
        · exact ⟨[], xs, by rw [← h3]; simp, by simp⟩
        · refine ⟨x :: l1, l2, by rw [hdec, List.cons_append], ?_⟩
          intro e he
          rcases List.mem_cons.mp he with he | he
          · rw [he]; exact hlt
          · exact hall e he
  · with_unfolding_all decide

/-- Witness for C4 at the concrete A, A, B, B run: the runner-up tally is
bounded by the winner's tally of 2. -/
theorem c4_majority_vote_witness :
    lookupCount (tallyOf [pA, pA, pB, pB]) "ZEUS III" ≤ 2 := by
  have h := ((c4_majority_vote [pA, pA, pB, pB]).2.1 "APOLLO VI" 2
    (by with_unfolding_all decide)).1 ("ZEUS III", 2) (by with_unfolding_all decide)
  have e : lookupCount (tallyOf [pA, pA, pB, pB]) "ZEUS III" = 2 := by
    with_unfolding_all decide
  exact le_trans (le_of_eq e) h

set_option maxRecDepth 400000

/-- C8 counterexample: on the 30-point E2E scenario the code emits the
leading Rest stretch (indices 0-9) as a standalone Rest segment — by the time
the Rest→Run transition is allowed to commit, that buffer has accumulated
exactly the 10 leading points and so meets the minimum length. -/
theorem c8_counterexample :
    ((segment_runs dzero scenario).filter
        (fun s => decide (s.segment_type = SegType.rest))).map Segment.points =
      [List.take 10 scenario] := by
  with_unfolding_all decide

/-- C8 amended: on the scenario input `segment_runs` emits exactly two
segments — a Rest segment holding the 10 leading points and a single Run
segment spanning exactly indices 10-24 (15 points) with vertical change
−5 < 0; the trailing 5-point Rest stretch is dropped. -/
theorem c8_scenario_amended :
    (segment_runs dzero scenario).map (fun s => (s.segment_type, s.points)) =
      [(SegType.rest, List.take 10 scenario),
       (SegType.run, List.take 15 (List.drop 10 scenario))] ∧
    (segment_runs dzero scenario).map Segment.vertical_change = [0, -5] := by
  with_unfolding_all decide

end SnowRecorder
